import Mathlib

/-!
Verification of the GatherPay order settlement and split-payment engine
(`OrderProcessor` in the repository's order-processing module).

The TypeScript source is shallowly embedded as follows:
* JavaScript `number` amounts are modelled as exact rationals (`ℚ`);
  `Number(x.toFixed(2))` becomes `round2`, which on rationals is exactly
  round-half-up (ties toward +infinity) to 2 decimal places.
* The Firestore document store is a `DBState`: association lists from id
  to document for users (wallet balances), orders and groups, plus an
  append-only transaction log.
* `writeBatch` is a list of staged `BatchOp`s; `batch.commit()` applies
  the staged writes to the state (`commitBatch`).  A mid-loop commit
  (`operationCount >= MAX_BATCH_SIZE`) therefore really mutates the
  state even when the enclosing logical transaction later fails, which
  is faithful to Firestore: a `WriteBatch` committed inside a
  `runTransaction` callback is not part of that transaction and is not
  rolled back with it.
* Thrown `OrderProcessingError`s become the `OPError` inductive (the
  string error codes of the source, carrying the user id where the
  source message names a user); a failing computation returns
  `Except.error (e, st)` where `st` is the store state left behind by
  the attempt.  Timestamps and human-readable message texts are elided.
-/

namespace GatherPay

/-- Models `Number(x.toFixed(2))` from the source on exact rationals:
round-half-up to two decimal places. -/
def round2 (q : ℚ) : ℚ := ((⌊q * 100 + 1/2⌋ : ℤ) : ℚ) / 100

/-- Platform fee percentage, `PLATFORM_FEE_PERCENTAGE = 2` in the source. -/
def PLATFORM_FEE_PERCENTAGE : ℚ := 2

/-- No-show penalty percentage, `NO_SHOW_PENALTY_PERCENTAGE = 20` in the source. -/
def NO_SHOW_PENALTY_PERCENTAGE : ℚ := 20

/-- Firestore batch limit, `MAX_BATCH_SIZE = 500` in the source. -/
def MAX_BATCH_SIZE : ℕ := 500

/-- Retry bound, `MAX_RETRIES = 3` in the source. -/
def MAX_RETRIES : ℕ := 3

/-- The `OrderItem` interface of the source (input of `calculateSplit`). -/
structure OrderItem where
  userId : String
  itemMRP : ℚ
  finalAmount : ℚ
  approved : Bool
  received : Bool
  deriving DecidableEq

/-- The `OrderSplit` interface of the source. -/
structure OrderSplit where
  userId : String
  originalAmount : ℚ
  taxShare : ℚ
  discountShare : ℚ
  finalAmount : ℚ
  approved : Bool
  deriving DecidableEq

/-- The error codes of `OrderProcessingError` as raised by the source.
Constructors carry the user id where the source's message names a
specific user. -/
inductive OPError where
  | ORDER_NOT_FOUND
  | ORDER_COMPLETED
  | ORDER_CANCELLED
  | GROUP_NOT_FOUND
  | INVALID_GROUP_STATUS
  | USER_NOT_FOUND (userId : String)
  | WALLET_NOT_FOUND (userId : String)
  | INSUFFICIENT_BALANCE (userId : String)
  | SPLITS_NOT_APPROVED
  | ITEM_NOT_FOUND
  | ALREADY_NO_SHOW
  | INVALID_ITEMS
  | INVALID_TAX
  | INVALID_DISCOUNT
  | INVALID_TOTAL
  deriving DecidableEq

/-- An item stored in an order document's `items` map (the fields read
and written by `processNoShow`). -/
structure StoredItem where
  finalAmount : ℚ
  noShow : Bool
  noShowPenalty : Option ℚ
  deriving DecidableEq

/-- An order document (the fields read and written by the processor). -/
structure Order where
  status : String
  items : List (String × StoredItem)
  platformFee : Option ℚ
  deriving DecidableEq

/-- A group document (the fields read by the processor). -/
structure Group where
  status : String
  members : List String
  deriving DecidableEq

/-- A ledger entry written to the `transactions` collection.  The
`serverTimestamp()` field is elided; `platformFee` is the extra metadata
field set only on the leader's credit entry. -/
structure Txn where
  type : String
  amount : ℚ
  description : String
  userId : String
  groupId : String
  orderId : String
  status : String
  platformFee : Option ℚ
  deriving DecidableEq

instance {ε α : Type} [DecidableEq ε] [DecidableEq α] : DecidableEq (Except ε α)
  | .error e, .error f =>
    if h : e = f then .isTrue (by rw [h]) else .isFalse (fun hc => h (Except.error.inj hc))
  | .error _, .ok _ => .isFalse (fun hc => Except.noConfusion hc)
  | .ok _, .error _ => .isFalse (fun hc => Except.noConfusion hc)
  | .ok x, .ok y =>
    if h : x = y then .isTrue (by rw [h]) else .isFalse (fun hc => h (Except.ok.inj hc))

/-- Lookup in an association list keyed by document id. -/
def alookup {β : Type} (k : String) : List (String × β) → Option β
  | [] => none
  | p :: rest => if p.1 = k then some p.2 else alookup k rest

/-- Update the (first) entry with the given key, leaving the list
unchanged when the key is absent (Firestore `update` on the fields the
processor touches). -/
def aupdate {β : Type} (k : String) (f : β → β) : List (String × β) → List (String × β)
  | [] => []
  | p :: rest => if p.1 = k then (p.1, f p.2) :: rest else p :: aupdate k f rest

/-- Delete the entries with the given key (`transaction.delete`). -/
def adelete {β : Type} (k : String) : List (String × β) → List (String × β)
  | [] => []
  | p :: rest => if p.1 = k then adelete k rest else p :: adelete k rest

/-- The Firestore document-store state seen by the processor: wallet
balances (`users/{id}.wallet.balance`), order documents, group
documents, and the append-only `transactions` collection. -/
structure DBState where
  users : List (String × ℚ)
  orders : List (String × Order)
  groups : List (String × Group)
  txns : List Txn
  deriving DecidableEq

/-- Models `OrderProcessor.calculateSplit`.  The `Array.isArray` and
`typeof ... !== 'number'` halves of the source's guards are vacuous in
the typed embedding; the `CALCULATION_ERROR` re-wrap in the source's
`catch` is unreachable because the map body cannot throw. -/
def calculateSplit (items : List OrderItem) (totalTax totalDiscount : ℚ) :
    Except OPError (List OrderSplit) :=
  if items.length = 0 then .error .INVALID_ITEMS
  else if totalTax < 0 then .error .INVALID_TAX
  else if totalDiscount < 0 then .error .INVALID_DISCOUNT
  else
    let totalMRP := items.foldl (fun sum item => sum + item.itemMRP) 0
    if totalMRP ≤ 0 then .error .INVALID_TOTAL
    else .ok (items.map fun item =>
      let portion := item.itemMRP / totalMRP
      let taxShare := round2 (totalTax * portion)
      let discountShare := round2 (totalDiscount * portion)
      let finalAmount := round2 (item.itemMRP + taxShare - discountShare)
      { userId := item.userId
        originalAmount := item.itemMRP
        taxShare := taxShare
        discountShare := discountShare
        finalAmount := finalAmount
        approved := false })

/-- Models `OrderProcessor.validateOrder`: the order must exist and be
neither completed nor cancelled. -/
def validateOrder (st : DBState) (orderId : String) : Except OPError Order :=
  match alookup orderId st.orders with
  | none => .error .ORDER_NOT_FOUND
  | some orderData =>
    if orderData.status = "completed" then .error .ORDER_COMPLETED
    else if orderData.status = "cancelled" then .error .ORDER_CANCELLED
    else .ok orderData

/-- Models `OrderProcessor.validateGroupMembers`: the group must exist
with status `ordered`; returns its member list. -/
def validateGroupMembers (st : DBState) (groupId : String) : Except OPError (List String) :=
  match alookup groupId st.groups with
  | none => .error .GROUP_NOT_FOUND
  | some groupData =>
    if groupData.status ≠ "ordered" then .error .INVALID_GROUP_STATUS
    else .ok groupData.members

/-- Models `OrderProcessor.validateUserWallets`: reads each member's
wallet balance, failing with `USER_NOT_FOUND` on a missing user doc.
The source awaits a `Promise.all` over the member list; since the
transaction reads do not mutate anything, that is modelled as a
left-to-right traversal failing on the first missing user. -/
def validateUserWallets (st : DBState) : List String → Except OPError (List (String × ℚ))
  | [] => .ok []
  | userId :: rest =>
    match alookup userId st.users with
    | none => .error (.USER_NOT_FOUND userId)
    | some balance =>
      match validateUserWallets st rest with
      | .error e => .error e
      | .ok ws => .ok ((userId, balance) :: ws)

/-- A write staged into a Firestore `writeBatch` by the processor. -/
inductive BatchOp where
  | walletIncrement (userId : String) (delta : ℚ)
  | addTxn (t : Txn)
  | orderComplete (orderId : String) (fee : ℚ)
  | itemNoShow (orderId : String) (userId : String) (penalty : ℚ)
  deriving DecidableEq

/-- Effect of one staged write on the store. -/
def applyOp (st : DBState) : BatchOp → DBState
  | .walletIncrement userId delta =>
      { st with users := aupdate userId (fun b => b + delta) st.users }
  | .addTxn t => { st with txns := st.txns ++ [t] }
  | .orderComplete orderId fee =>
      let upd := fun (o : Order) => { o with status := "completed", platformFee := some fee }
      { st with orders := aupdate orderId upd st.orders }
  | .itemNoShow orderId userId penalty =>
      let updItem := fun (it : StoredItem) =>
        { it with noShow := true, noShowPenalty := some penalty }
      let upd := fun (o : Order) => { o with items := aupdate userId updItem o.items }
      { st with orders := aupdate orderId upd st.orders }

/-- Models `batch.commit()`: apply the staged writes in order. -/
def commitBatch (st : DBState) (batch : List BatchOp) : DBState :=
  batch.foldl applyOp st

/-- Sum of `split.finalAmount`, the source's
`splits.reduce((sum, split) => sum + split.finalAmount, 0)`. -/
def totalOf (splits : List OrderSplit) : ℚ :=
  splits.foldl (fun sum split => sum + split.finalAmount) 0

/-- The platform fee computed by `processOrderCompletion`:
`Number((totalAmount * (PLATFORM_FEE_PERCENTAGE / 100)).toFixed(2))`. -/
def feeOf (splits : List OrderSplit) : ℚ :=
  round2 (totalOf splits * (PLATFORM_FEE_PERCENTAGE / 100))

/-- The `debit` ledger entry staged for a non-leader member. -/
def debitTxn (groupId orderId : String) (split : OrderSplit) : Txn :=
  { type := "debit"
    amount := split.finalAmount
    description := "Payment for group order in " ++ groupId
    userId := split.userId
    groupId := groupId
    orderId := orderId
    status := "completed"
    platformFee := none }

/-- The `credit` ledger entry staged for the leader, carrying the
platform fee as metadata. -/
def creditTxn (groupId orderId leaderId : String) (splits : List OrderSplit) : Txn :=
  { type := "credit"
    amount := totalOf splits - feeOf splits
    description := "Received payment for group order in " ++ groupId
    userId := leaderId
    groupId := groupId
    orderId := orderId
    status := "completed"
    platformFee := some (feeOf splits) }

/-- The member-debit loop of `processOrderCompletion`.  The accumulator
is the current store state, the staged batch, and `operationCount`; when
`operationCount` reaches `MAX_BATCH_SIZE` the staged writes are
committed mid-loop (this is the source's
`if (operationCount >= MAX_BATCH_SIZE) { await batch.commit(); operationCount = 0; }`).
The model clears the staged list on a mid-loop commit; the source keeps
appending to the already-committed `WriteBatch` object, which the
Firestore SDK rejects on the next write — either way the writes
committed mid-loop stand and everything after the commit point fails to
apply atomically with them.  On an error the state reached so far
(including any mid-loop commits) is returned with the error. -/
def debitLoop (groupId orderId leaderId : String) (wallets : List (String × ℚ)) :
    List OrderSplit → DBState × List BatchOp × ℕ →
    Except (OPError × DBState) (DBState × List BatchOp × ℕ)
  | [], acc => .ok acc
  | split :: rest, (st, batch, opCount) =>
    if split.userId = leaderId then
      debitLoop groupId orderId leaderId wallets rest (st, batch, opCount)
    else
      match alookup split.userId wallets with
      | none => .error (.WALLET_NOT_FOUND split.userId, st)
      | some balance =>
        if balance < split.finalAmount then
          .error (.INSUFFICIENT_BALANCE split.userId, st)
        else
          let staged := batch ++
            [BatchOp.walletIncrement split.userId (-split.finalAmount),
             BatchOp.addTxn (debitTxn groupId orderId split)]
          if MAX_BATCH_SIZE ≤ opCount + 2 then
            debitLoop groupId orderId leaderId wallets rest (commitBatch st staged, [], 0)
          else
            debitLoop groupId orderId leaderId wallets rest (st, staged, opCount + 2)

/-- The writes staged after the member loop: leader wallet credit,
leader ledger entry, and the order-completion update. -/
def leaderOps (groupId orderId leaderId : String) (splits : List OrderSplit) : List BatchOp :=
  [BatchOp.walletIncrement leaderId (totalOf splits - feeOf splits),
   BatchOp.addTxn (creditTxn groupId orderId leaderId splits),
   BatchOp.orderComplete orderId (feeOf splits)]

/-- One execution of the `runTransaction` callback of
`processOrderCompletion`: validations, the unanimous-approval gate, the
member-debit loop, leader credit, order completion, final batch commit
and the group delete.  An error carries the store state left behind by
the attempt (unchanged unless a mid-loop batch commit already ran). -/
def processAttempt (st : DBState) (groupId orderId leaderId : String)
    (splits : List OrderSplit) : Except (OPError × DBState) DBState :=
  match validateOrder st orderId with
  | .error e => .error (e, st)
  | .ok _ =>
    match validateGroupMembers st groupId with
    | .error e => .error (e, st)
    | .ok members =>
      match validateUserWallets st members with
      | .error e => .error (e, st)
      | .ok wallets =>
        if splits.all (fun split => split.approved) then
          match debitLoop groupId orderId leaderId wallets splits (st, [], 0) with
          | .error es => .error es
          | .ok (st1, batch1, _) =>
            let st2 := commitBatch st1 (batch1 ++ leaderOps groupId orderId leaderId splits)
            .ok { st2 with groups := adelete groupId st2.groups }
        else .error (.SPLITS_NOT_APPROVED, st)

/-- A thrown JavaScript error as seen by the retry wrapper: either an
`OrderProcessingError` (business-rule failure) or any other runtime
error (e.g. a Firestore transaction-contention abort). -/
inductive JsError where
  | ope (e : OPError)
  | runtime
  deriving DecidableEq

/-- Whether the error is an `OrderProcessingError`
(`error instanceof OrderProcessingError` in the source). -/
def JsError.isOpe : JsError → Bool
  | .ope _ => true
  | .runtime => false

/-- Outcome of the retry wrapper: a normal return or a thrown error. -/
inductive RetryOutcome where
  | returned (b : Bool)
  | threw (e : JsError)
  deriving DecidableEq

/-- Observable result of `processOrderCompletion`: the outcome, the
final store state, the number of transaction attempts started, and the
backoff delays (ms) slept between attempts. -/
structure RetryResult where
  outcome : RetryOutcome
  state : DBState
  attempts : ℕ
  delays : List ℕ
  deriving DecidableEq

/-- The retry loop of `processOrderCompletion`:
`while (retryCount < MAX_RETRIES)` with
`catch { retryCount++; if (retryCount >= MAX_RETRIES || !(error instanceof OrderProcessingError)) throw; await sleep(2^retryCount * 1000) }`.
`att` is one transaction attempt on the current state; `fuel` equals
`MAX_RETRIES - retryCount`, which bounds the remaining iterations.  The
`fuel = 0` case is the loop's unreachable `return false` fall-through. -/
def runRetries (att : DBState → Option JsError × DBState) :
    ℕ → ℕ → DBState → ℕ → List ℕ → RetryResult
  | 0, _, st, attempts, delays =>
      { outcome := .returned false, state := st, attempts := attempts, delays := delays }
  | fuel + 1, retryCount, st, attempts, delays =>
      match att st with
      | (none, st1) =>
          { outcome := .returned true, state := st1, attempts := attempts + 1, delays := delays }
      | (some e, st1) =>
          if MAX_RETRIES ≤ retryCount + 1 ∨ e.isOpe = false then
            { outcome := .threw e, state := st1, attempts := attempts + 1, delays := delays }
          else
            runRetries att fuel (retryCount + 1) st1 (attempts + 1)
              (delays ++ [2 ^ (retryCount + 1) * 1000])

/-- Models `OrderProcessor.processOrderCompletion`: the transaction
attempt wrapped in the bounded retry loop.  In the embedding an attempt
only throws `OrderProcessingError`s; transient runtime errors are
environment events and are modelled by running `runRetries` on other
attempt functions. -/
def processOrderCompletion (st : DBState) (groupId orderId leaderId : String)
    (splits : List OrderSplit) : RetryResult :=
  runRetries
    (fun s =>
      match processAttempt s groupId orderId leaderId splits with
      | .ok s1 => (none, s1)
      | .error (e, s1) => (some (.ope e), s1))
    MAX_RETRIES 0 st 0 []

/-- The `debit` ledger entry staged by `processNoShow` for the
penalized user. -/
def noShowDebitTxn (groupId orderId userId : String) (penaltyAmount : ℚ) : Txn :=
  { type := "debit"
    amount := penaltyAmount
    description := "No-show penalty for group order in " ++ groupId
    userId := userId
    groupId := groupId
    orderId := orderId
    status := "completed"
    platformFee := none }

/-- The `credit` ledger entry staged by `processNoShow` for the leader. -/
def noShowCreditTxn (groupId orderId leaderId : String) (penaltyAmount : ℚ) : Txn :=
  { type := "credit"
    amount := penaltyAmount
    description := "Received no-show penalty for group order in " ++ groupId
    userId := leaderId
    groupId := groupId
    orderId := orderId
    status := "completed"
    platformFee := none }

/-- The five writes staged by `processNoShow`: penalty debit, leader
credit, the paired ledger entries, and the item's no-show update. -/
def noShowOps (groupId orderId userId leaderId : String) (penaltyAmount : ℚ) : List BatchOp :=
  [BatchOp.walletIncrement userId (-penaltyAmount),
   BatchOp.walletIncrement leaderId penaltyAmount,
   BatchOp.addTxn (noShowDebitTxn groupId orderId userId penaltyAmount),
   BatchOp.addTxn (noShowCreditTxn groupId orderId leaderId penaltyAmount),
   BatchOp.itemNoShow orderId userId penaltyAmount]

/-- Models `OrderProcessor.processNoShow`.  The source destructures
`const [userWallet, leaderWallet] = await this.validateUserWallets([userId, leaderId], ...)`;
the empty-list branch below is unreachable since two members are always
passed.  The source's `INSUFFICIENT_BALANCE` message here does not name
the user; the carried id records whose balance was checked.  The
source's `catch` re-wraps non-`OrderProcessingError` exceptions as
`PROCESSING_ERROR`; the transaction body as modelled only throws
`OrderProcessingError`s, so that branch is unreachable. -/
def processNoShow (st : DBState) (groupId orderId userId leaderId : String) :
    Except (OPError × DBState) DBState :=
  match validateOrder st orderId with
  | .error e => .error (e, st)
  | .ok orderData =>
    match alookup userId orderData.items with
    | none => .error (.ITEM_NOT_FOUND, st)
    | some userItem =>
      if userItem.noShow then .error (.ALREADY_NO_SHOW, st)
      else
        let penaltyAmount := round2 (userItem.finalAmount * (NO_SHOW_PENALTY_PERCENTAGE / 100))
        match validateUserWallets st [userId, leaderId] with
        | .error e => .error (e, st)
        | .ok [] => .error (.ITEM_NOT_FOUND, st)
        | .ok ((_, userBalance) :: _) =>
          if userBalance < penaltyAmount then
            .error (.INSUFFICIENT_BALANCE userId, st)
          else
            .ok (commitBatch st (noShowOps groupId orderId userId leaderId penaltyAmount))

/-! ### Association-list store lemmas -/

theorem alookup_aupdate_self {β : Type} (k : String) (f : β → β) (l : List (String × β)) :
    alookup k (aupdate k f l) = (alookup k l).map f := by
  induction l with
  | nil => rfl
  | cons p rest ih =>
    by_cases h : p.1 = k
    · simp [alookup, aupdate, h]
    · simp [alookup, aupdate, h, ih]

theorem alookup_aupdate_ne {β : Type} {k' k : String} (h : k' ≠ k) (f : β → β)
    (l : List (String × β)) : alookup k' (aupdate k f l) = alookup k' l := by
  have h2 : ¬(k = k') := fun hk => h hk.symm
  induction l with
  | nil => rfl
  | cons p rest ih =>
    obtain ⟨a, b⟩ := p
    by_cases hp : a = k
    · simp [alookup, aupdate, hp, h2]
    · by_cases hp' : a = k'
      · simp [alookup, aupdate, hp, hp', h]
      · simp [alookup, aupdate, hp, hp', ih]

theorem aupdate_id {β : Type} (k : String) (f : β → β) (hf : ∀ v, f v = v)
    (l : List (String × β)) : aupdate k f l = l := by
  induction l with
  | nil => rfl
  | cons p rest ih =>
    obtain ⟨a, b⟩ := p
    by_cases h : a = k
    · simp [aupdate, h, hf]
    · simp [aupdate, h, ih]

theorem alookup_adelete_self {β : Type} (k : String) (l : List (String × β)) :
    alookup k (adelete k l) = none := by
  induction l with
  | nil => rfl
  | cons p rest ih =>
    by_cases h : p.1 = k
    · simp [adelete, h, ih]
    · simp [adelete, alookup, h, ih]

theorem alookup_adelete_ne {β : Type} {k' k : String} (h : k' ≠ k) (l : List (String × β)) :
    alookup k' (adelete k l) = alookup k' l := by
  have h2 : ¬(k = k') := fun hk => h hk.symm
  induction l with
  | nil => rfl
  | cons p rest ih =>
    obtain ⟨a, b⟩ := p
    by_cases hp : a = k
    · simp [adelete, alookup, hp, h2, ih]
    · simp [adelete, alookup, hp, ih]

/-! ### Batch-commit lemmas -/

theorem commitBatch_append (st : DBState) (b1 b2 : List BatchOp) :
    commitBatch st (b1 ++ b2) = commitBatch (commitBatch st b1) b2 := by
  simp [commitBatch, List.foldl_append]

theorem commitBatch_nil (st : DBState) : commitBatch st [] = st := rfl

theorem commitBatch_cons (st : DBState) (op : BatchOp) (ops : List BatchOp) :
    commitBatch st (op :: ops) = commitBatch (applyOp st op) ops := rfl

/-- The ledger entries appended by a list of staged writes, in order. -/
def opsTxns : List BatchOp → List Txn
  | [] => []
  | .addTxn t :: rest => t :: opsTxns rest
  | .walletIncrement _ _ :: rest => opsTxns rest
  | .orderComplete _ _ :: rest => opsTxns rest
  | .itemNoShow _ _ _ :: rest => opsTxns rest

theorem applyOp_groups (st : DBState) (op : BatchOp) : (applyOp st op).groups = st.groups := by
  cases op <;> rfl

theorem commitBatch_groups (st : DBState) (ops : List BatchOp) :
    (commitBatch st ops).groups = st.groups := by
  induction ops generalizing st with
  | nil => rfl
  | cons op rest ih => simp [commitBatch] at ih ⊢; rw [ih, applyOp_groups]

theorem commitBatch_txns (st : DBState) (ops : List BatchOp) :
    (commitBatch st ops).txns = st.txns ++ opsTxns ops := by
  induction ops generalizing st with
  | nil => simp [commitBatch, opsTxns]
  | cons op rest ih =>
    cases op with
    | addTxn t => simp [commitBatch, applyOp, opsTxns] at ih ⊢; rw [ih]; simp
    | walletIncrement u d => simp [commitBatch, applyOp, opsTxns] at ih ⊢; rw [ih]
    | orderComplete o f => simp [commitBatch, applyOp, opsTxns] at ih ⊢; rw [ih]
    | itemNoShow o u p => simp [commitBatch, applyOp, opsTxns] at ih ⊢; rw [ih]

/-! ### Characterizing the member-debit loop -/

/-- The writes the member-debit loop stages across all of its (possibly
mid-loop-committed) batches: a wallet decrement and a `debit` ledger
entry for every non-leader split, in split order. -/
def debitOps (groupId orderId leaderId : String) : List OrderSplit → List BatchOp
  | [] => []
  | split :: rest =>
    if split.userId = leaderId then debitOps groupId orderId leaderId rest
    else
      BatchOp.walletIncrement split.userId (-split.finalAmount) ::
        BatchOp.addTxn (debitTxn groupId orderId split) ::
        debitOps groupId orderId leaderId rest

/-- On success, flushing the loop's final staged batch is the same as
applying all staged debit writes to the loop's initial state: mid-loop
commits only change when writes land, not which writes land. -/
theorem debitLoop_ok_flush (groupId orderId leaderId : String) (wallets : List (String × ℚ))
    (splits : List OrderSplit) :
    ∀ (st : DBState) (batch : List BatchOp) (opCount : ℕ) (st1 : DBState)
      (b1 : List BatchOp) (c1 : ℕ),
      debitLoop groupId orderId leaderId wallets splits (st, batch, opCount) = .ok (st1, b1, c1) →
      commitBatch st1 b1 = commitBatch st (batch ++ debitOps groupId orderId leaderId splits) := by
  induction splits with
  | nil =>
    intro st batch opCount st1 b1 c1 h
    simp [debitLoop] at h
    obtain ⟨h1, h2, h3⟩ := h
    subst h1; subst h2
    simp [debitOps]
  | cons split rest ih =>
    intro st batch opCount st1 b1 c1 h
    rw [debitLoop] at h
    by_cases hl : split.userId = leaderId
    · rw [if_pos hl] at h
      have := ih st batch opCount st1 b1 c1 h
      rw [this, debitOps, if_pos hl]
    · rw [if_neg hl] at h
      cases hw : alookup split.userId wallets with
      | none =>
        simp only [hw] at h
        exact absurd h (by simp)
      | some balance =>
        simp only [hw] at h
        by_cases hb : balance < split.finalAmount
        · rw [if_pos hb] at h; exact absurd h (by simp)
        · rw [if_neg hb] at h
          rw [debitOps, if_neg hl]
          by_cases hc : MAX_BATCH_SIZE ≤ opCount + 2
          · rw [if_pos hc] at h
            have := ih _ _ _ _ _ _ h
            rw [this]
            rw [← commitBatch_append]
            simp
          · rw [if_neg hc] at h
            have := ih _ _ _ _ _ _ h
            rw [this]
            simp

/-- Debit writes never touch order documents. -/
theorem commitBatch_debitOps_orders (groupId orderId leaderId : String)
    (splits : List OrderSplit) (st : DBState) :
    (commitBatch st (debitOps groupId orderId leaderId splits)).orders = st.orders := by
  induction splits generalizing st with
  | nil => rfl
  | cons split rest ih =>
    rw [debitOps]
    by_cases hl : split.userId = leaderId
    · rw [if_pos hl]; exact ih st
    · rw [if_neg hl]
      rw [show BatchOp.walletIncrement split.userId (-split.finalAmount) ::
            BatchOp.addTxn (debitTxn groupId orderId split) ::
            debitOps groupId orderId leaderId rest =
          [BatchOp.walletIncrement split.userId (-split.finalAmount),
            BatchOp.addTxn (debitTxn groupId orderId split)] ++
            debitOps groupId orderId leaderId rest from rfl]
      rw [commitBatch_append, ih]
      rfl

/-- Debit writes never touch the leader's wallet: the loop skips the
leader's own split. -/
theorem commitBatch_debitOps_users_leader (groupId orderId leaderId : String)
    (splits : List OrderSplit) (st : DBState) :
    alookup leaderId (commitBatch st (debitOps groupId orderId leaderId splits)).users =
      alookup leaderId st.users := by
  induction splits generalizing st with
  | nil => rfl
  | cons split rest ih =>
    rw [debitOps]
    by_cases hl : split.userId = leaderId
    · rw [if_pos hl]; exact ih st
    · rw [if_neg hl]
      rw [show BatchOp.walletIncrement split.userId (-split.finalAmount) ::
            BatchOp.addTxn (debitTxn groupId orderId split) ::
            debitOps groupId orderId leaderId rest =
          [BatchOp.walletIncrement split.userId (-split.finalAmount),
            BatchOp.addTxn (debitTxn groupId orderId split)] ++
            debitOps groupId orderId leaderId rest from rfl]
      rw [commitBatch_append, ih]
      show alookup leaderId (aupdate split.userId _ st.users) = alookup leaderId st.users
      exact alookup_aupdate_ne (fun hk => hl hk.symm) _ st.users

/-- The ledger entries staged by the debit loop: one `debit` entry per
non-leader split, in split order. -/
theorem opsTxns_debitOps (groupId orderId leaderId : String) (splits : List OrderSplit) :
    opsTxns (debitOps groupId orderId leaderId splits) =
      (splits.filter (fun split => split.userId != leaderId)).map (debitTxn groupId orderId) := by
  induction splits with
  | nil => rfl
  | cons split rest ih =>
    rw [debitOps]
    by_cases hl : split.userId = leaderId
    · rw [if_pos hl]
      simp [List.filter, hl, ih]
    · rw [if_neg hl]
      simp only [opsTxns]
      rw [ih]
      have hbne : (split.userId != leaderId) = true := by simp [hl]
      simp [List.filter, hbne]

/-! ### Validation and attempt inversion lemmas -/

theorem validateOrder_ok_iff (st : DBState) (orderId : String) (od : Order) :
    validateOrder st orderId = .ok od ↔
      alookup orderId st.orders = some od ∧ od.status ≠ "completed" ∧ od.status ≠ "cancelled" := by
  unfold validateOrder
  cases h : alookup orderId st.orders with
  | none => simp
  | some o =>
    by_cases h1 : o.status = "completed"
    · simp only [if_pos h1]
      constructor
      · intro hx; exact absurd hx (by simp)
      · rintro ⟨ho, h2, h3⟩
        exact absurd (by rw [← Option.some_inj.mp ho]; exact h1) h2
    · by_cases h2 : o.status = "cancelled"
      · simp only [if_neg h1, if_pos h2]
        constructor
        · intro hx; exact absurd hx (by simp)
        · rintro ⟨ho, h3, h4⟩
          exact absurd (by rw [← Option.some_inj.mp ho]; exact h2) h4
      · simp only [if_neg h1, if_neg h2]
        constructor
        · intro hx
          obtain rfl := Except.ok.inj hx
          exact ⟨rfl, h1, h2⟩
        · rintro ⟨ho, h3, h4⟩
          rw [Option.some_inj.mp ho]

theorem validateOrder_missing (st : DBState) (orderId : String)
    (h : alookup orderId st.orders = none) :
    validateOrder st orderId = .error .ORDER_NOT_FOUND := by
  unfold validateOrder; rw [h]

theorem validateOrder_completed (st : DBState) (orderId : String) (od : Order)
    (h : alookup orderId st.orders = some od) (hs : od.status = "completed") :
    validateOrder st orderId = .error .ORDER_COMPLETED := by
  unfold validateOrder; rw [h]; simp [hs]

theorem validateOrder_cancelled (st : DBState) (orderId : String) (od : Order)
    (h : alookup orderId st.orders = some od) (hs : od.status = "cancelled") :
    validateOrder st orderId = .error .ORDER_CANCELLED := by
  unfold validateOrder
  rw [h]
  have : od.status ≠ "completed" := by rw [hs]; decide
  simp [this, hs]

theorem processAttempt_err_of_validateOrder (st : DBState) (groupId orderId leaderId : String)
    (splits : List OrderSplit) (e : OPError) (h : validateOrder st orderId = .error e) :
    processAttempt st groupId orderId leaderId splits = .error (e, st) := by
  unfold processAttempt; rw [h]

theorem processAttempt_SNA (st : DBState) (groupId orderId leaderId : String)
    (splits : List OrderSplit) (od : Order) (members : List String)
    (wallets : List (String × ℚ))
    (h1 : validateOrder st orderId = .ok od)
    (h2 : validateGroupMembers st groupId = .ok members)
    (h3 : validateUserWallets st members = .ok wallets)
    (h4 : splits.all (fun split => split.approved) = false) :
    processAttempt st groupId orderId leaderId splits = .error (.SPLITS_NOT_APPROVED, st) := by
  unfold processAttempt
  simp [h1, h2, h3, h4]

/-- Inversion of a successful settlement attempt: the validations all
succeeded, all splits were approved, the debit loop succeeded, and the
final state is the initial state with all debit writes, the leader
writes and the order-completion write applied, and the group deleted. -/
theorem processAttempt_ok_inv (st : DBState) (groupId orderId leaderId : String)
    (splits : List OrderSplit) (st' : DBState)
    (h : processAttempt st groupId orderId leaderId splits = .ok st') :
    ∃ od members wallets,
      validateOrder st orderId = .ok od ∧
      validateGroupMembers st groupId = .ok members ∧
      validateUserWallets st members = .ok wallets ∧
      splits.all (fun split => split.approved) = true ∧
      st' = (fun s2 => { s2 with groups := adelete groupId s2.groups })
        (commitBatch st (debitOps groupId orderId leaderId splits ++
          leaderOps groupId orderId leaderId splits)) := by
  unfold processAttempt at h
  cases h1 : validateOrder st orderId with
  | error e => simp [h1] at h
  | ok od =>
    simp only [h1] at h
    cases h2 : validateGroupMembers st groupId with
    | error e => simp [h2] at h
    | ok members =>
      simp only [h2] at h
      cases h3 : validateUserWallets st members with
      | error e => simp [h3] at h
      | ok wallets =>
        simp only [h3] at h
        by_cases h4 : splits.all (fun split => split.approved) = true
        · rw [if_pos h4] at h
          cases h5 : debitLoop groupId orderId leaderId wallets splits (st, [], 0) with
          | error es => simp [h5] at h
          | ok acc =>
            obtain ⟨st1, b1, c1⟩ := acc
            simp only [h5] at h
            refine ⟨od, members, wallets, rfl, rfl, h3, h4, ?_⟩
            have hflush := debitLoop_ok_flush groupId orderId leaderId wallets splits
              st [] 0 st1 b1 c1 h5
            simp only [List.nil_append] at hflush
            have hst : commitBatch st1 (b1 ++ leaderOps groupId orderId leaderId splits) =
                commitBatch st (debitOps groupId orderId leaderId splits ++
                  leaderOps groupId orderId leaderId splits) := by
              rw [commitBatch_append, hflush, ← commitBatch_append]
            rw [← Except.ok.inj h]
            simp only []
            rw [hst]
        · rw [if_neg h4] at h
          exact absurd h (by simp)

/-! ### Retry-wrapper lemmas -/

/-- A first attempt that returns normally makes the wrapper return
`true` after exactly one attempt with no backoff sleeps. -/
theorem runRetries_first_ok (att : DBState → Option JsError × DBState) (st st1 : DBState)
    (h : att st = (none, st1)) :
    runRetries att MAX_RETRIES 0 st 0 [] =
      { outcome := .returned true, state := st1, attempts := 1, delays := [] } := by
  show runRetries att 3 0 st 0 [] = _
  rw [runRetries, h]

/-- An attempt that keeps failing with the same `OrderProcessingError`
while leaving the state unchanged is retried to the bound: the wrapper
makes 3 attempts, sleeps 2000 ms and then 4000 ms, and finally rethrows
the error. -/
theorem runRetries_constOpe (att : DBState → Option JsError × DBState) (st : DBState)
    (e : OPError) (h : att st = (some (.ope e), st)) :
    runRetries att MAX_RETRIES 0 st 0 [] =
      { outcome := .threw (.ope e), state := st, attempts := 3, delays := [2000, 4000] } := by
  show runRetries att 3 0 st 0 [] = _
  norm_num [runRetries, h, MAX_RETRIES, JsError.isOpe]

/-- A successful attempt makes `processOrderCompletion` return `true`
after one attempt. -/
theorem processOrderCompletion_ok (st st1 : DBState) (groupId orderId leaderId : String)
    (splits : List OrderSplit)
    (h : processAttempt st groupId orderId leaderId splits = .ok st1) :
    processOrderCompletion st groupId orderId leaderId splits =
      { outcome := .returned true, state := st1, attempts := 1, delays := [] } := by
  unfold processOrderCompletion
  apply runRetries_first_ok
  rw [h]

/-- A state-preserving business-rule failure is retried to the bound and
then rethrown, leaving the store unchanged. -/
theorem processOrderCompletion_constErr (st : DBState) (groupId orderId leaderId : String)
    (splits : List OrderSplit) (e : OPError)
    (h : processAttempt st groupId orderId leaderId splits = .error (e, st)) :
    processOrderCompletion st groupId orderId leaderId splits =
      { outcome := .threw (.ope e), state := st, attempts := 3, delays := [2000, 4000] } := by
  unfold processOrderCompletion
  apply runRetries_constOpe
  rw [h]

/-! ### Split-calculator lemmas -/

/-- The source's `items.reduce((sum, item) => sum + item.itemMRP, 0)`. -/
def totalMRPOf (items : List OrderItem) : ℚ :=
  items.foldl (fun sum item => sum + item.itemMRP) 0

/-- The split produced for one item by `calculateSplit`:
`ratio = itemMRP / totalMRP`, `taxShare = round2(totalTax * ratio)`,
`discountShare = round2(totalDiscount * ratio)`,
`finalAmount = round2(itemMRP + taxShare - discountShare)`, with
`userId` and `originalAmount` copied from the item and `approved`
initialized to `false`. -/
def splitOf (items : List OrderItem) (totalTax totalDiscount : ℚ) (item : OrderItem) :
    OrderSplit :=
  let portion := item.itemMRP / totalMRPOf items
  let taxShare := round2 (totalTax * portion)
  let discountShare := round2 (totalDiscount * portion)
  { userId := item.userId
    originalAmount := item.itemMRP
    taxShare := taxShare
    discountShare := discountShare
    finalAmount := round2 (item.itemMRP + taxShare - discountShare)
    approved := false }

theorem totalMRPOf_pos_ne_nil {items : List OrderItem} (h : 0 < totalMRPOf items) :
    items ≠ [] := by
  intro hnil
  rw [hnil] at h
  simp [totalMRPOf] at h

theorem calculateSplit_ok_eq (items : List OrderItem) (totalTax totalDiscount : ℚ)
    (h1 : items ≠ []) (h2 : 0 ≤ totalTax) (h3 : 0 ≤ totalDiscount)
    (h4 : 0 < totalMRPOf items) :
    calculateSplit items totalTax totalDiscount =
      .ok (items.map (splitOf items totalTax totalDiscount)) := by
  unfold calculateSplit
  rw [if_neg (by simpa using h1), if_neg (not_lt.mpr h2), if_neg (not_lt.mpr h3)]
  have h4' : ¬(List.foldl (fun sum item => sum + item.itemMRP) 0 items ≤ 0) := not_le.mpr h4
  show (if List.foldl (fun sum item => sum + item.itemMRP) 0 items ≤ 0 then
      (Except.error OPError.INVALID_TOTAL : Except OPError (List OrderSplit))
    else Except.ok (items.map (splitOf items totalTax totalDiscount))) =
    Except.ok (items.map (splitOf items totalTax totalDiscount))
  rw [if_neg h4']

/-! ### Rounding-error bounds -/

/-- Half-up rounding to two decimals moves a rational by at most 1/200. -/
theorem abs_round2_sub_le (q : ℚ) : |round2 q - q| ≤ 1 / 200 := by
  rw [abs_le]
  have hle : ((⌊q * 100 + 1/2⌋ : ℤ) : ℚ) ≤ q * 100 + 1/2 := Int.floor_le _
  have hgt : q * 100 + 1/2 < (⌊q * 100 + 1/2⌋ : ℤ) + 1 := Int.lt_floor_add_one _
  unfold round2
  constructor <;> [linarith; linarith]

/-- Sum-difference bound: if every pointwise difference is bounded by
`c`, the difference of the mapped sums is bounded by `c * length`. -/
theorem abs_sum_map_sub_le {α : Type} (l : List α) (f g : α → ℚ) (c : ℚ)
    (h : ∀ x ∈ l, |f x - g x| ≤ c) :
    |(l.map f).sum - (l.map g).sum| ≤ c * l.length := by
  induction l with
  | nil => simp
  | cons x rest ih =>
    have hx := h x (by simp)
    have hrest := ih (fun y hy => h y (by simp [hy]))
    have key : (f x + (rest.map f).sum) - (g x + (rest.map g).sum) =
        (f x - g x) + ((rest.map f).sum - (rest.map g).sum) := by ring
    simp only [List.map_cons, List.sum_cons, List.length_cons]
    push_cast
    rw [key]
    calc |(f x - g x) + ((rest.map f).sum - (rest.map g).sum)|
        ≤ |f x - g x| + |(rest.map f).sum - (rest.map g).sum| := abs_add _ _
      _ ≤ c + c * rest.length := add_le_add hx hrest
      _ = c * ((rest.length : ℚ) + 1) := by ring

theorem foldl_add_itemMRP (items : List OrderItem) (a : ℚ) :
    items.foldl (fun sum item => sum + item.itemMRP) a =
      a + (items.map OrderItem.itemMRP).sum := by
  induction items generalizing a with
  | nil => simp
  | cons item rest ih =>
    simp only [List.foldl_cons, List.map_cons, List.sum_cons]
    rw [ih]
    ring

theorem totalMRPOf_eq_sum (items : List OrderItem) :
    totalMRPOf items = (items.map OrderItem.itemMRP).sum := by
  unfold totalMRPOf
  rw [foldl_add_itemMRP]
  ring

theorem sum_map_mul_const (l : List OrderItem) (c : ℚ) :
    (l.map (fun item => item.itemMRP * c)).sum = (l.map OrderItem.itemMRP).sum * c := by
  induction l with
  | nil => simp
  | cons item rest ih =>
    simp only [List.map_cons, List.sum_cons]
    rw [ih]
    ring

/-- Per-item deviation of the rounded split from the exact proportional
share: each of the three independent half-up roundings contributes at
most 1/200. -/
theorem splitOf_finalAmount_close (items : List OrderItem) (totalTax totalDiscount : ℚ)
    (item : OrderItem) :
    |(splitOf items totalTax totalDiscount item).finalAmount -
        item.itemMRP * (1 + totalTax / totalMRPOf items - totalDiscount / totalMRPOf items)| ≤
      3 / 200 := by
  unfold splitOf
  simp only []
  set T := totalMRPOf items
  set tS := round2 (totalTax * (item.itemMRP / T)) with htS
  set dS := round2 (totalDiscount * (item.itemMRP / T)) with hdS
  have h1 : |round2 (item.itemMRP + tS - dS) - (item.itemMRP + tS - dS)| ≤ 1 / 200 :=
    abs_round2_sub_le _
  have h2 : |tS - totalTax * (item.itemMRP / T)| ≤ 1 / 200 := abs_round2_sub_le _
  have h3 : |dS - totalDiscount * (item.itemMRP / T)| ≤ 1 / 200 := abs_round2_sub_le _
  have key : round2 (item.itemMRP + tS - dS) -
      item.itemMRP * (1 + totalTax / T - totalDiscount / T) =
      (round2 (item.itemMRP + tS - dS) - (item.itemMRP + tS - dS)) +
        (tS - totalTax * (item.itemMRP / T)) -
        (dS - totalDiscount * (item.itemMRP / T)) := by
    field_simp
    ring
  rw [key]
  calc |(round2 (item.itemMRP + tS - dS) - (item.itemMRP + tS - dS)) +
        (tS - totalTax * (item.itemMRP / T)) - (dS - totalDiscount * (item.itemMRP / T))|
      ≤ |(round2 (item.itemMRP + tS - dS) - (item.itemMRP + tS - dS)) +
          (tS - totalTax * (item.itemMRP / T))| +
        |dS - totalDiscount * (item.itemMRP / T)| := abs_sub _ _
    _ ≤ |round2 (item.itemMRP + tS - dS) - (item.itemMRP + tS - dS)| +
          |tS - totalTax * (item.itemMRP / T)| +
        |dS - totalDiscount * (item.itemMRP / T)| := by
          have := abs_add (round2 (item.itemMRP + tS - dS) - (item.itemMRP + tS - dS))
            (tS - totalTax * (item.itemMRP / T))
          linarith
    _ ≤ 1 / 200 + 1 / 200 + 1 / 200 := by linarith
    _ = 3 / 200 := by norm_num

/-! ### Projections of a successful settlement state -/

theorem processAttempt_ok_orders (st : DBState) (groupId orderId leaderId : String)
    (splits : List OrderSplit) (st' : DBState)
    (h : processAttempt st groupId orderId leaderId splits = .ok st') :
    st'.orders = aupdate orderId
      (fun od => { od with status := "completed", platformFee := some (feeOf splits) })
      st.orders := by
  obtain ⟨od, ms, ws, h1, h2, h3, h4, h5⟩ :=
    processAttempt_ok_inv st groupId orderId leaderId splits st' h
  rw [h5]
  show (commitBatch st (debitOps groupId orderId leaderId splits ++
    leaderOps groupId orderId leaderId splits)).orders = _
  rw [commitBatch_append]
  simp only [leaderOps, commitBatch_cons, commitBatch_nil, applyOp]
  rw [commitBatch_debitOps_orders]

theorem processAttempt_ok_users_leader (st : DBState) (groupId orderId leaderId : String)
    (splits : List OrderSplit) (st' : DBState)
    (h : processAttempt st groupId orderId leaderId splits = .ok st') :
    alookup leaderId st'.users =
      (alookup leaderId st.users).map (fun b => b + (totalOf splits - feeOf splits)) := by
  obtain ⟨od, ms, ws, h1, h2, h3, h4, h5⟩ :=
    processAttempt_ok_inv st groupId orderId leaderId splits st' h
  rw [h5]
  show alookup leaderId (commitBatch st (debitOps groupId orderId leaderId splits ++
    leaderOps groupId orderId leaderId splits)).users = _
  rw [commitBatch_append]
  simp only [leaderOps, commitBatch_cons, commitBatch_nil, applyOp]
  rw [alookup_aupdate_self]
  rw [commitBatch_debitOps_users_leader]

theorem processAttempt_ok_txns (st : DBState) (groupId orderId leaderId : String)
    (splits : List OrderSplit) (st' : DBState)
    (h : processAttempt st groupId orderId leaderId splits = .ok st') :
    st'.txns = st.txns ++
      (splits.filter (fun split => split.userId != leaderId)).map (debitTxn groupId orderId) ++
      [creditTxn groupId orderId leaderId splits] := by
  obtain ⟨od, ms, ws, h1, h2, h3, h4, h5⟩ :=
    processAttempt_ok_inv st groupId orderId leaderId splits st' h
  rw [h5]
  show (commitBatch st (debitOps groupId orderId leaderId splits ++
    leaderOps groupId orderId leaderId splits)).txns = _
  rw [commitBatch_txns]
  have hops : opsTxns (debitOps groupId orderId leaderId splits ++
      leaderOps groupId orderId leaderId splits) =
      opsTxns (debitOps groupId orderId leaderId splits) ++
        [creditTxn groupId orderId leaderId splits] := by
    induction debitOps groupId orderId leaderId splits with
    | nil => rfl
    | cons op rest ih =>
      cases op <;> simp [opsTxns, ih]
  rw [hops, opsTxns_debitOps, ← List.append_assoc]

theorem processAttempt_ok_groups (st : DBState) (groupId orderId leaderId : String)
    (splits : List OrderSplit) (st' : DBState)
    (h : processAttempt st groupId orderId leaderId splits = .ok st') :
    alookup groupId st'.groups = none := by
  obtain ⟨od, ms, ws, h1, h2, h3, h4, h5⟩ :=
    processAttempt_ok_inv st groupId orderId leaderId splits st' h
  rw [h5]
  show alookup groupId (adelete groupId (commitBatch st _).groups) = none
  rw [alookup_adelete_self]

/-! ### Claim C5: the split formula -/

/-- C5: for every valid input (non-empty items, non-negative tax and
discount, positive total MRP), `calculateSplit` returns one split per
input item in input order, computed by `splitOf` (ratio = itemMRP /
totalMRP, taxShare = round2(totalTax * ratio), discountShare =
round2(totalDiscount * ratio), finalAmount = round2(itemMRP + taxShare -
discountShare), userId and originalAmount copied, approved = false);
being a pure Lean function of its arguments, it is deterministic and
side-effect free. -/
theorem c5_calculateSplit_formula (items : List OrderItem) (totalTax totalDiscount : ℚ)
    (h1 : items ≠ []) (h2 : 0 ≤ totalTax) (h3 : 0 ≤ totalDiscount)
    (h4 : 0 < totalMRPOf items) :
    calculateSplit items totalTax totalDiscount =
      .ok (items.map (splitOf items totalTax totalDiscount)) ∧
    (items.map (splitOf items totalTax totalDiscount)).length = items.length ∧
    ∀ item ∈ items,
      (splitOf items totalTax totalDiscount item).userId = item.userId ∧
      (splitOf items totalTax totalDiscount item).originalAmount = item.itemMRP ∧
      (splitOf items totalTax totalDiscount item).approved = false :=
  ⟨calculateSplit_ok_eq items totalTax totalDiscount h1 h2 h3 h4,
   by simp, fun item _ => ⟨rfl, rfl, rfl⟩⟩

/-- The three-member scenario from the specification: item MRPs
[100, 200, 300], totalTax 30, totalDiscount 15. -/
def specItems : List OrderItem :=
  [{ userId := "a", itemMRP := 100, finalAmount := 0, approved := false, received := false },
   { userId := "b", itemMRP := 200, finalAmount := 0, approved := false, received := false },
   { userId := "c", itemMRP := 300, finalAmount := 0, approved := false, received := false }]

set_option maxRecDepth 10000 in
/-- Witness for C5 at the specification's scenario: the splits carry tax
shares [5, 10, 15], discount shares [2.50, 5, 7.50] and final amounts
[102.50, 205, 307.50]. -/
theorem c5_calculateSplit_formula_witness :
    calculateSplit specItems 30 15 = .ok
      [{ userId := "a", originalAmount := 100, taxShare := 5, discountShare := 5/2,
         finalAmount := 205/2, approved := false },
       { userId := "b", originalAmount := 200, taxShare := 10, discountShare := 5,
         finalAmount := 205, approved := false },
       { userId := "c", originalAmount := 300, taxShare := 15, discountShare := 15/2,
         finalAmount := 615/2, approved := false }] := by
  have h := (c5_calculateSplit_formula specItems 30 15 (by decide) (by norm_num)
    (by norm_num) (by with_unfolding_all decide)).1
  rw [h]
  with_unfolding_all decide

/-! ### Claim C6: calculator input validation -/

/-- C6: `calculateSplit` fails with `INVALID_ITEMS` exactly on an empty
item list, with `INVALID_TAX` exactly when the items are non-empty and
the tax is negative, with `INVALID_DISCOUNT` exactly when additionally
the discount is negative, with `INVALID_TOTAL` exactly when additionally
the summed MRP is non-positive, and raises no error when all
preconditions hold (check order as in the source). -/
theorem c6_calculateSplit_validation (items : List OrderItem) (totalTax totalDiscount : ℚ) :
    (calculateSplit items totalTax totalDiscount = .error .INVALID_ITEMS ↔ items = []) ∧
    (calculateSplit items totalTax totalDiscount = .error .INVALID_TAX ↔
      items ≠ [] ∧ totalTax < 0) ∧
    (calculateSplit items totalTax totalDiscount = .error .INVALID_DISCOUNT ↔
      items ≠ [] ∧ 0 ≤ totalTax ∧ totalDiscount < 0) ∧
    (calculateSplit items totalTax totalDiscount = .error .INVALID_TOTAL ↔
      items ≠ [] ∧ 0 ≤ totalTax ∧ 0 ≤ totalDiscount ∧ totalMRPOf items ≤ 0) ∧
    (items ≠ [] ∧ 0 ≤ totalTax ∧ 0 ≤ totalDiscount ∧ 0 < totalMRPOf items →
      ∀ e : OPError, calculateSplit items totalTax totalDiscount ≠ .error e) := by
  have hT : totalMRPOf items = items.foldl (fun sum item => sum + item.itemMRP) 0 := rfl
  by_cases hi : items = []
  · subst hi
    simp [calculateSplit]
  · have hi' : ¬(items.length = 0) := by simpa using hi
    by_cases ht : totalTax < 0
    · simp [calculateSplit, hi', hi, ht, not_le.mpr ht]
    · by_cases hd : totalDiscount < 0
      · simp [calculateSplit, hi', hi, ht, not_lt.mp ht, hd, not_le.mpr hd]
      · by_cases hs : totalMRPOf items ≤ 0
        · rw [hT] at hs
          simp [calculateSplit, hi', hi, ht, not_lt.mp ht, hd, not_lt.mp hd, hs, hT,
            not_lt.mpr hs]
        · rw [hT] at hs
          simp [calculateSplit, hi', hi, ht, not_lt.mp ht, hd, not_lt.mp hd, hs, hT]

/-- Witness for C6: each validation failure and one fully valid input,
evaluated concretely. -/
theorem c6_calculateSplit_validation_witness :
    calculateSplit [] 1 1 = .error .INVALID_ITEMS ∧
    calculateSplit specItems (-1) 0 = .error .INVALID_TAX ∧
    calculateSplit specItems 30 (-2) = .error .INVALID_DISCOUNT ∧
    (∀ e : OPError, calculateSplit specItems 30 15 ≠ .error e) := by
  refine ⟨?_, ?_, ?_, ?_⟩
  · exact (c6_calculateSplit_validation [] 1 1).1.mpr rfl
  · exact (c6_calculateSplit_validation specItems (-1) 0).2.1.mpr ⟨by decide, by norm_num⟩
  · exact (c6_calculateSplit_validation specItems 30 (-2)).2.2.1.mpr
      ⟨by decide, by norm_num, by norm_num⟩
  · exact (c6_calculateSplit_validation specItems 30 15).2.2.2.2
      ⟨by decide, by norm_num, by norm_num, by with_unfolding_all decide⟩

/-! ### Claim C8: split-sum drift -/

/-- A single item whose MRP of 0.005 rupees makes all three half-up
roundings drift upward. -/
def c8Item : OrderItem :=
  { userId := "a", itemMRP := 1/200, finalAmount := 0, approved := false, received := false }

/-- The split that `calculateSplit` returns for `c8Item` with totalTax
0.005 and totalDiscount 0.0049. -/
def c8Expected : OrderSplit :=
  { userId := "a", originalAmount := 1/200, taxShare := 1/100, discountShare := 0,
    finalAmount := 1/50, approved := false }

/-- Counterexample to C8 as stated: on the valid input with one item of
MRP 0.005, totalTax 0.005 and totalDiscount 0.0049, the returned final
amount is 0.02, but itemMRP + tax - discount = 0.0051, a drift of
0.0149, which exceeds the claimed tolerance of 0.01 x 1. -/
theorem c8_split_sum_counterexample :
    ((0:ℚ) ≤ 1/200 ∧ (0:ℚ) ≤ 49/10000 ∧ 0 < totalMRPOf [c8Item]) ∧
    calculateSplit [c8Item] (1/200) (49/10000) = .ok [c8Expected] ∧
    ¬(|(([c8Expected].map OrderSplit.finalAmount).sum) -
        (([c8Item].map OrderItem.itemMRP).sum + 1/200 - 49/10000)| ≤
      1/100 * (([c8Item] : List OrderItem).length : ℚ)) := by
  refine ⟨⟨by norm_num, by norm_num, by with_unfolding_all decide⟩,
    by with_unfolding_all decide, by with_unfolding_all decide⟩

/-- C8 amended: for every valid input the sum of the returned final
amounts differs from (sum of itemMRP) + totalTax - totalDiscount by at
most 0.015 times the number of items (three independent half-up
roundings per item, each off by at most 0.005). -/
theorem c8_split_sum_drift_bound (items : List OrderItem) (totalTax totalDiscount : ℚ)
    (l : List OrderSplit)
    (h2 : 0 ≤ totalTax) (h3 : 0 ≤ totalDiscount) (h4 : 0 < totalMRPOf items)
    (h : calculateSplit items totalTax totalDiscount = .ok l) :
    |(l.map OrderSplit.finalAmount).sum -
        ((items.map OrderItem.itemMRP).sum + totalTax - totalDiscount)| ≤
      3 / 200 * items.length := by
  have h1 : items ≠ [] := totalMRPOf_pos_ne_nil h4
  have heq := calculateSplit_ok_eq items totalTax totalDiscount h1 h2 h3 h4
  have hl : l = items.map (splitOf items totalTax totalDiscount) :=
    Except.ok.inj (h.symm.trans heq)
  subst hl
  have hT : totalMRPOf items ≠ 0 := ne_of_gt h4
  have hmap : (items.map (splitOf items totalTax totalDiscount)).map OrderSplit.finalAmount =
      items.map (fun item => (splitOf items totalTax totalDiscount item).finalAmount) := by
    rw [List.map_map]; rfl
  rw [hmap]
  have hsum_g : (items.map (fun item => item.itemMRP *
      (1 + totalTax / totalMRPOf items - totalDiscount / totalMRPOf items))).sum =
      (items.map OrderItem.itemMRP).sum + totalTax - totalDiscount := by
    rw [sum_map_mul_const, ← totalMRPOf_eq_sum]
    field_simp
  rw [← hsum_g]
  exact abs_sum_map_sub_le items _ _ (3/200)
    (fun item _ => splitOf_finalAmount_close items totalTax totalDiscount item)

/-- Witness for the amended C8 at the specification's scenario: the
drift there is 0 ≤ 0.015 × 3. -/
theorem c8_split_sum_drift_bound_witness :
    |(((specItems.map (splitOf specItems 30 15)).map OrderSplit.finalAmount).sum) -
        ((specItems.map OrderItem.itemMRP).sum + 30 - 15)| ≤
      3 / 200 * specItems.length :=
  c8_split_sum_drift_bound specItems 30 15 (specItems.map (splitOf specItems 30 15))
    (by norm_num) (by norm_num) (by with_unfolding_all decide)
    (calculateSplit_ok_eq specItems 30 15 (by decide) (by norm_num) (by norm_num)
      (by with_unfolding_all decide))

/-! ### Claim C2: retry semantics -/

/-- A well-formed store with one pending order, an ordered group with
members L and a, and funded wallets. -/
def c2state : DBState :=
  { users := [(("L"), 0), (("a"), 100)],
    orders := [(("o"), { status := "pending", items := [], platformFee := none })],
    groups := [(("g"), { status := "ordered", members := [("L"), ("a")] })],
    txns := [] }

/-- A single unapproved split for user a. -/
def c2splits : List OrderSplit :=
  [{ userId := ("a"), originalAmount := 10, taxShare := 0, discountShare := 0,
     finalAmount := 10, approved := false }]

/-- C2 refuted: the source's retry guard
`if (retryCount >= MAX_RETRIES || !(error instanceof OrderProcessingError)) throw`
retries exactly the `OrderProcessingError`s.  On a business-rule failure
(`SPLITS_NOT_APPROVED` here) `processOrderCompletion` makes 3 attempts
with backoff sleeps of 2000 ms and 4000 ms before surfacing the error
(the claim says it propagates immediately on first occurrence), while an
attempt failing with a non-`OrderProcessingError` (transient/contention)
error is rethrown after a single attempt with no backoff (the claim says
it is retried up to 3 attempts). -/
theorem c2_retry_semantics_inverted :
    processOrderCompletion c2state ("g") ("o") ("L") c2splits =
      { outcome := .threw (.ope .SPLITS_NOT_APPROVED), state := c2state, attempts := 3,
        delays := [2000, 4000] } ∧
    runRetries (fun s => (some JsError.runtime, s)) MAX_RETRIES 0 c2state 0 [] =
      { outcome := .threw .runtime, state := c2state, attempts := 1, delays := [] } := by
  constructor
  · exact processOrderCompletion_constErr c2state ("g") ("o") ("L") c2splits .SPLITS_NOT_APPROVED
      (processAttempt_SNA c2state ("g") ("o") ("L") c2splits
        { status := "pending", items := [], platformFee := none }
        [("L"), ("a")] [(("L"), 0), (("a"), 100)]
        (by with_unfolding_all decide) (by with_unfolding_all decide)
        (by with_unfolding_all decide) (by decide))
  · norm_num [runRetries, MAX_RETRIES, JsError.isOpe]

/-! ### Claim C4: unanimous-approval gating -/

/-- C4: whenever the order, group and wallet validations pass and at
least one split is unapproved, `processOrderCompletion` fails with
`SPLITS_NOT_APPROVED` and the store — in particular every wallet — is
left exactly as it was. -/
theorem c4_unapproved_split_gating (st : DBState) (groupId orderId leaderId : String)
    (splits : List OrderSplit) (od : Order) (members : List String)
    (wallets : List (String × ℚ))
    (h1 : validateOrder st orderId = .ok od)
    (h2 : validateGroupMembers st groupId = .ok members)
    (h3 : validateUserWallets st members = .ok wallets)
    (h4 : ∃ split ∈ splits, split.approved = false) :
    processOrderCompletion st groupId orderId leaderId splits =
      { outcome := .threw (.ope .SPLITS_NOT_APPROVED), state := st, attempts := 3,
        delays := [2000, 4000] } := by
  have hall : splits.all (fun split => split.approved) = false := by
    obtain ⟨s, hs, ha⟩ := h4
    simp only [List.all_eq_false]
    exact ⟨s, hs, by simp [ha]⟩
  exact processOrderCompletion_constErr st groupId orderId leaderId splits .SPLITS_NOT_APPROVED
    (processAttempt_SNA st groupId orderId leaderId splits od members wallets h1 h2 h3 hall)

/-- The store for the C4 witness. -/
def c4state : DBState :=
  { users := [(("L"), 0), (("a"), 100), (("b"), 100)],
    orders := [(("o"), { status := "pending", items := [], platformFee := none })],
    groups := [(("g"), { status := "ordered", members := [("L"), ("a"), ("b")] })],
    txns := [] }

/-- The approved split of the C4 witness. -/
def c4splitA : OrderSplit :=
  { userId := ("a"), originalAmount := 40, taxShare := 0, discountShare := 0,
    finalAmount := 40, approved := true }

/-- The unapproved split of the C4 witness. -/
def c4splitB : OrderSplit :=
  { userId := ("b"), originalAmount := 60, taxShare := 0, discountShare := 0,
    finalAmount := 60, approved := false }

/-- Splits for the C4 witness: a approved, b not approved. -/
def c4splits : List OrderSplit := [c4splitA, c4splitB]

/-- Witness for C4 at a concrete store: the settlement fails with
`SPLITS_NOT_APPROVED` and the final state equals the initial one. -/
theorem c4_unapproved_split_gating_witness :
    processOrderCompletion c4state ("g") ("o") ("L") c4splits =
      { outcome := .threw (.ope .SPLITS_NOT_APPROVED), state := c4state, attempts := 3,
        delays := [2000, 4000] } := by
  refine c4_unapproved_split_gating c4state ("g") ("o") ("L") c4splits
    { status := "pending", items := [], platformFee := none }
    [("L"), ("a"), ("b")] [(("L"), 0), (("a"), 100), (("b"), 100)] ?_ ?_ ?_ ?_
  · with_unfolding_all decide
  · with_unfolding_all decide
  · with_unfolding_all decide
  · exact ⟨c4splitB, by with_unfolding_all decide, rfl⟩

/-! ### Claim C3: no double settlement -/

/-- Extracts the error code of a failed attempt. -/
def errCode : Except (OPError × DBState) DBState → Option OPError
  | .error es => some es.1
  | .ok _ => none

/-- Extracts the store state carried by an attempt's result. -/
def errState : Except (OPError × DBState) DBState → DBState
  | .error es => es.2
  | .ok s => s

/-- C3: a successful settlement attempt makes `processOrderCompletion`
return `true` after a single attempt and marks the order `completed`, so
a second `processOrderCompletion` on the resulting state fails with
`ORDER_COMPLETED` and leaves the state — in particular every wallet —
unchanged (funds committed exactly once); likewise an order whose status
is `cancelled` fails with `ORDER_CANCELLED`, and a missing order with
`ORDER_NOT_FOUND`, both without mutating the store.  (Per the retry
defect recorded against C2, the failure is surfaced after 3 attempts.) -/
theorem c3_no_double_settlement (st st1 : DBState) (groupId orderId leaderId : String)
    (splits : List OrderSplit) :
    (processAttempt st groupId orderId leaderId splits = .ok st1 →
      processOrderCompletion st groupId orderId leaderId splits =
        { outcome := .returned true, state := st1, attempts := 1, delays := [] } ∧
      (alookup orderId st1.orders).map Order.status = some ("completed") ∧
      processOrderCompletion st1 groupId orderId leaderId splits =
        { outcome := .threw (.ope .ORDER_COMPLETED), state := st1, attempts := 3,
          delays := [2000, 4000] }) ∧
    ((alookup orderId st.orders).map Order.status = some ("cancelled") →
      processOrderCompletion st groupId orderId leaderId splits =
        { outcome := .threw (.ope .ORDER_CANCELLED), state := st, attempts := 3,
          delays := [2000, 4000] }) ∧
    (alookup orderId st.orders = none →
      processOrderCompletion st groupId orderId leaderId splits =
        { outcome := .threw (.ope .ORDER_NOT_FOUND), state := st, attempts := 3,
          delays := [2000, 4000] }) := by
  refine ⟨?_, ?_, ?_⟩
  · intro h
    obtain ⟨od, ms, ws, h1, h2, h3, h4, h5⟩ :=
      processAttempt_ok_inv st groupId orderId leaderId splits st1 h
    have hlk : alookup orderId st.orders = some od := ((validateOrder_ok_iff st orderId od).mp h1).1
    have hord := processAttempt_ok_orders st groupId orderId leaderId splits st1 h
    have hlk1 : alookup orderId st1.orders =
        some { od with status := "completed", platformFee := some (feeOf splits) } := by
      rw [hord, alookup_aupdate_self, hlk]
      rfl
    refine ⟨processOrderCompletion_ok st st1 groupId orderId leaderId splits h, ?_, ?_⟩
    · rw [hlk1]; rfl
    · refine processOrderCompletion_constErr st1 groupId orderId leaderId splits .ORDER_COMPLETED
        (processAttempt_err_of_validateOrder st1 groupId orderId leaderId splits .ORDER_COMPLETED ?_)
      exact validateOrder_completed st1 orderId _ hlk1 rfl
  · intro h
    cases hlk : alookup orderId st.orders with
    | none => rw [hlk] at h; exact absurd h (by simp)
    | some od =>
      rw [hlk] at h
      have hs : od.status = "cancelled" := by simpa using h
      exact processOrderCompletion_constErr st groupId orderId leaderId splits .ORDER_CANCELLED
        (processAttempt_err_of_validateOrder st groupId orderId leaderId splits .ORDER_CANCELLED
          (validateOrder_cancelled st orderId od hlk hs))
  · intro h
    exact processOrderCompletion_constErr st groupId orderId leaderId splits .ORDER_NOT_FOUND
      (processAttempt_err_of_validateOrder st groupId orderId leaderId splits .ORDER_NOT_FOUND
        (validateOrder_missing st orderId h))

/-- The store for the C3 witness. -/
def c3state : DBState :=
  { users := [(("L"), 0), (("a"), 100)],
    orders := [(("o"), { status := "pending", items := [], platformFee := none })],
    groups := [(("g"), { status := "ordered", members := [("L"), ("a")] })],
    txns := [] }

/-- A single approved split for user a. -/
def c3splits : List OrderSplit :=
  [{ userId := ("a"), originalAmount := 50, taxShare := 0, discountShare := 0,
     finalAmount := 50, approved := true }]

/-- The state after the first successful settlement of the C3 witness. -/
def c3out : DBState := errState (processAttempt c3state ("g") ("o") ("L") c3splits)

/-- The C3 witness store with the order cancelled. -/
def c3stateCancelled : DBState :=
  { c3state with orders := [(("o"), { status := "cancelled", items := [], platformFee := none })] }

/-- The C3 witness store with no order document. -/
def c3stateMissing : DBState := { c3state with orders := [] }

/-- Witness for C3: a concrete first settlement succeeds, the second
call fails with `ORDER_COMPLETED` leaving the state unchanged, and the
cancelled/missing variants fail with `ORDER_CANCELLED` and
`ORDER_NOT_FOUND`. -/
theorem c3_no_double_settlement_witness :
    (processOrderCompletion c3state ("g") ("o") ("L") c3splits =
        { outcome := .returned true, state := c3out, attempts := 1, delays := [] } ∧
      (alookup ("o") c3out.orders).map Order.status = some ("completed") ∧
      processOrderCompletion c3out ("g") ("o") ("L") c3splits =
        { outcome := .threw (.ope .ORDER_COMPLETED), state := c3out, attempts := 3,
          delays := [2000, 4000] }) ∧
    processOrderCompletion c3stateCancelled ("g") ("o") ("L") c3splits =
      { outcome := .threw (.ope .ORDER_CANCELLED), state := c3stateCancelled, attempts := 3,
        delays := [2000, 4000] } ∧
    processOrderCompletion c3stateMissing ("g") ("o") ("L") c3splits =
      { outcome := .threw (.ope .ORDER_NOT_FOUND), state := c3stateMissing, attempts := 3,
        delays := [2000, 4000] } := by
  refine ⟨(c3_no_double_settlement c3state c3out ("g") ("o") ("L") c3splits).1 ?_,
    (c3_no_double_settlement c3stateCancelled c3stateCancelled ("g") ("o") ("L") c3splits).2.1 ?_,
    (c3_no_double_settlement c3stateMissing c3stateMissing ("g") ("o") ("L") c3splits).2.2 ?_⟩
  · with_unfolding_all decide
  · with_unfolding_all decide
  · with_unfolding_all decide

/-! ### Claim C7: leader exclusion, leader credit and the platform fee -/

/-- C7: on any successful settlement attempt, only non-leader splits
produce debit ledger entries (the leader's own split is filtered out of
the debit loop), the leader's wallet is credited
`totalAmount - platformFee` with
`platformFee = round2(totalAmount * 2 / 100)`, and the leader's credit
ledger entry carries the platform fee as metadata. -/
theorem c7_leader_excluded_and_credited (st st1 : DBState) (groupId orderId leaderId : String)
    (splits : List OrderSplit)
    (h : processAttempt st groupId orderId leaderId splits = .ok st1) :
    alookup leaderId st1.users =
      (alookup leaderId st.users).map (fun b => b + (totalOf splits - feeOf splits)) ∧
    feeOf splits = round2 (totalOf splits * (PLATFORM_FEE_PERCENTAGE / 100)) ∧
    st1.txns = st.txns ++
      (splits.filter (fun split => split.userId != leaderId)).map (debitTxn groupId orderId) ++
      [creditTxn groupId orderId leaderId splits] ∧
    (creditTxn groupId orderId leaderId splits).amount = totalOf splits - feeOf splits ∧
    (creditTxn groupId orderId leaderId splits).platformFee = some (feeOf splits) :=
  ⟨processAttempt_ok_users_leader st groupId orderId leaderId splits st1 h, rfl,
   processAttempt_ok_txns st groupId orderId leaderId splits st1 h, rfl, rfl⟩

/-- The store for the C7 witness: the leader's own balance (0) is far
below the leader's own split amount (100). -/
def c7state : DBState :=
  { users := [(("L"), 0), (("a"), 60)],
    orders := [(("o"), { status := "pending", items := [], platformFee := none })],
    groups := [(("g"), { status := "ordered", members := [("L"), ("a")] })],
    txns := [] }

/-- The leader's own split in the C7 witness. -/
def c7splitL : OrderSplit :=
  { userId := ("L"), originalAmount := 100, taxShare := 0, discountShare := 0,
    finalAmount := 100, approved := true }

/-- The member split in the C7 witness. -/
def c7splitA : OrderSplit :=
  { userId := ("a"), originalAmount := 50, taxShare := 0, discountShare := 0,
    finalAmount := 50, approved := true }

/-- Splits for the C7 witness, the leader's own split included. -/
def c7splits : List OrderSplit := [c7splitL, c7splitA]

/-- The state after the C7 witness settlement. -/
def c7out : DBState := errState (processAttempt c7state ("g") ("o") ("L") c7splits)

/-- Witness for C7: the settlement succeeds although the leader's
balance (0) is below the leader's own split amount (100) — the leader's
balance is never checked and the leader's split is skipped by the debit
loop.  Total 150, fee round2(150 * 2%) = 3: the leader ends at
0 + 147, user a is debited 50 → 10, and the ledger holds exactly one
debit entry (for a) and the leader credit carrying fee 3. -/
theorem c7_leader_excluded_and_credited_witness :
    processAttempt c7state ("g") ("o") ("L") c7splits = .ok c7out ∧
    alookup ("L") c7state.users = some 0 ∧
    alookup ("L") c7out.users = some 147 ∧
    alookup ("a") c7out.users = some 10 ∧
    c7out.txns = [debitTxn ("g") ("o") c7splitA, creditTxn ("g") ("o") ("L") c7splits] ∧
    (creditTxn ("g") ("o") ("L") c7splits).platformFee = some 3 := by
  have h : processAttempt c7state ("g") ("o") ("L") c7splits = .ok c7out := by
    with_unfolding_all decide
  have hc := c7_leader_excluded_and_credited c7state c7out ("g") ("o") ("L") c7splits h
  refine ⟨h, by decide, ?_, by with_unfolding_all decide, ?_, ?_⟩
  · exact hc.1.trans (by with_unfolding_all decide)
  · exact hc.2.2.1.trans (by with_unfolding_all decide)
  · exact hc.2.2.2.2.trans (by with_unfolding_all decide)

/-! ### Claim C9: no-show penalty and its idempotency guard -/

/-- The item update performed by the `itemNoShow` write. -/
def noShowItemUpd (p : ℚ) (it : StoredItem) : StoredItem :=
  { it with noShow := true, noShowPenalty := some p }

/-- The order-document update performed by the `itemNoShow` write. -/
def noShowOrderUpd (userId : String) (p : ℚ) (o : Order) : Order :=
  { o with items := aupdate userId (noShowItemUpd p) o.items }

/-- C9: with a valid order, an item for the user whose `noShow` flag is
still false, and both wallets present, `processNoShow` requires the
penalized user's balance to cover
`penalty = round2(finalAmount * 20 / 100)` (else `INSUFFICIENT_BALANCE`
with the store untouched); on success it atomically debits the user and
credits the leader by the penalty, appends exactly one debit/credit
ledger pair, sets the item's `noShow` flag with the penalty recorded,
and a second call on the resulting state fails with `ALREADY_NO_SHOW`
changing no wallet. -/
theorem c9_no_show_idempotent (st : DBState) (groupId orderId userId leaderId : String)
    (od : Order) (item : StoredItem) (ub lb p : ℚ)
    (ho : validateOrder st orderId = .ok od)
    (hi : alookup userId od.items = some item)
    (hns : item.noShow = false)
    (hu : alookup userId st.users = some ub)
    (hl : alookup leaderId st.users = some lb)
    (hul : userId ≠ leaderId)
    (hp : p = round2 (item.finalAmount * (NO_SHOW_PENALTY_PERCENTAGE / 100))) :
    (ub < p → processNoShow st groupId orderId userId leaderId =
      .error (.INSUFFICIENT_BALANCE userId, st)) ∧
    (p ≤ ub →
      processNoShow st groupId orderId userId leaderId =
        .ok (commitBatch st (noShowOps groupId orderId userId leaderId p)) ∧
      alookup userId (commitBatch st (noShowOps groupId orderId userId leaderId p)).users =
        some (ub - p) ∧
      alookup leaderId (commitBatch st (noShowOps groupId orderId userId leaderId p)).users =
        some (lb + p) ∧
      ((alookup orderId
          (commitBatch st (noShowOps groupId orderId userId leaderId p)).orders).bind
        (fun o => alookup userId o.items)) =
        some { item with noShow := true, noShowPenalty := some p } ∧
      (commitBatch st (noShowOps groupId orderId userId leaderId p)).txns =
        st.txns ++ [noShowDebitTxn groupId orderId userId p,
          noShowCreditTxn groupId orderId leaderId p] ∧
      processNoShow (commitBatch st (noShowOps groupId orderId userId leaderId p))
          groupId orderId userId leaderId =
        .error (.ALREADY_NO_SHOW,
          commitBatch st (noShowOps groupId orderId userId leaderId p))) := by
  have hvw : validateUserWallets st [userId, leaderId] = .ok [(userId, ub), (leaderId, lb)] := by
    simp [validateUserWallets, hu, hl]
  have hlu : leaderId ≠ userId := fun hx => hul hx.symm
  have hvo := (validateOrder_ok_iff st orderId od).mp ho
  have hrun : processNoShow st groupId orderId userId leaderId =
      (if ub < p then .error (.INSUFFICIENT_BALANCE userId, st)
       else .ok (commitBatch st (noShowOps groupId orderId userId leaderId p))) := by
    unfold processNoShow
    simp only [ho, hi, hns, Bool.false_eq_true, if_false, hvw, ← hp]
  -- users of the committed state
  have husers : (commitBatch st (noShowOps groupId orderId userId leaderId p)).users =
      aupdate leaderId (fun b => b + p) (aupdate userId (fun b => b + -p) st.users) := rfl
  have hordrs : (commitBatch st (noShowOps groupId orderId userId leaderId p)).orders =
      aupdate orderId (noShowOrderUpd userId p) st.orders := rfl
  have hlk2 : alookup orderId
      (commitBatch st (noShowOps groupId orderId userId leaderId p)).orders =
      some (noShowOrderUpd userId p od) := by
    rw [hordrs, alookup_aupdate_self, hvo.1]
    rfl
  have hitem : ((alookup orderId
      (commitBatch st (noShowOps groupId orderId userId leaderId p)).orders).bind
      (fun o => alookup userId o.items)) =
      some { item with noShow := true, noShowPenalty := some p } := by
    rw [hlk2]
    show alookup userId (aupdate userId (noShowItemUpd p) od.items) = _
    rw [alookup_aupdate_self, hi]
    rfl
  constructor
  · intro hlt
    rw [hrun, if_pos hlt]
  · intro hle
    have hok : processNoShow st groupId orderId userId leaderId =
        .ok (commitBatch st (noShowOps groupId orderId userId leaderId p)) := by
      rw [hrun, if_neg (not_lt.mpr hle)]
    refine ⟨hok, ?_, ?_, hitem, ?_, ?_⟩
    · rw [husers, alookup_aupdate_ne hul, alookup_aupdate_self, hu]
      simp [sub_eq_add_neg]
    · rw [husers, alookup_aupdate_self, alookup_aupdate_ne hlu, hl]
      rfl
    · rw [commitBatch_txns]
      rfl
    · have hvo2 : validateOrder (commitBatch st (noShowOps groupId orderId userId leaderId p))
          orderId = .ok (noShowOrderUpd userId p od) := by
        apply (validateOrder_ok_iff _ orderId _).mpr
        exact ⟨hlk2, hvo.2.1, hvo.2.2⟩
      have hi2 : alookup userId (noShowOrderUpd userId p od).items =
          some (noShowItemUpd p item) := by
        show alookup userId (aupdate userId (noShowItemUpd p) od.items) = _
        rw [alookup_aupdate_self, hi]
        rfl
      unfold processNoShow
      simp only [hvo2, hi2]
      rfl

/-- The store for the C9 witness: an in-progress order whose item for
user a has finalAmount 100 (penalty 20), user a holding 50 and the
leader 10. -/
def c9state : DBState :=
  { users := [(("L"), 10), (("a"), 50)],
    orders := [(("o"),
      { status := "pending",
        items := [(("a"), { finalAmount := 100, noShow := false, noShowPenalty := none })],
        platformFee := none })],
    groups := [], txns := [] }

/-- The state after the C9 witness penalty transfer. -/
def c9out : DBState := commitBatch c9state (noShowOps ("g") ("o") ("a") ("L") 20)

/-- Witness for C9: penalty 20 is transferred once (a: 50 → 30,
leader: 10 → 30, item flagged), and the second call fails with
`ALREADY_NO_SHOW` leaving the state unchanged. -/
theorem c9_no_show_idempotent_witness :
    processNoShow c9state ("g") ("o") ("a") ("L") = .ok c9out ∧
    alookup ("a") c9out.users = some 30 ∧
    alookup ("L") c9out.users = some 30 ∧
    c9out.txns = [noShowDebitTxn ("g") ("o") ("a") 20, noShowCreditTxn ("g") ("o") ("L") 20] ∧
    processNoShow c9out ("g") ("o") ("a") ("L") = .error (.ALREADY_NO_SHOW, c9out) := by
  have hp20 : (20:ℚ) = round2 ((100:ℚ) * (NO_SHOW_PENALTY_PERCENTAGE / 100)) := by
    with_unfolding_all decide
  have hc := c9_no_show_idempotent c9state ("g") ("o") ("a") ("L")
    { status := "pending",
      items := [(("a"), { finalAmount := 100, noShow := false, noShowPenalty := none })],
      platformFee := none }
    { finalAmount := 100, noShow := false, noShowPenalty := none }
    50 10 20
    (by with_unfolding_all decide) (by with_unfolding_all decide) rfl
    (by with_unfolding_all decide) (by with_unfolding_all decide)
    (by decide) hp20
  have h2 := hc.2 (by norm_num)
  refine ⟨h2.1, h2.2.1.trans (by norm_num), h2.2.2.1.trans (by norm_num), ?_, h2.2.2.2.2.2⟩
  exact h2.2.2.2.2.1.trans (by with_unfolding_all decide)

/-! ### Claim C10: the empty splits list settles vacuously -/

/-- C10: with an empty splits list and passing order, group and wallet
validations, the approval gate passes vacuously (`[].every` is true) and
the settlement succeeds on the first attempt: no wallet changes
(totalAmount = 0, platformFee = 0, so the leader is credited 0), a
zero-amount leader credit entry is appended, the order is marked
completed and the group is deleted — in particular `processOrderCompletion`
does not fail with `SPLITS_NOT_APPROVED`. -/
theorem c10_empty_splits_settle (st : DBState) (groupId orderId leaderId : String)
    (od : Order) (members : List String) (wallets : List (String × ℚ))
    (h1 : validateOrder st orderId = .ok od)
    (h2 : validateGroupMembers st groupId = .ok members)
    (h3 : validateUserWallets st members = .ok wallets) :
    ∃ st1, processOrderCompletion st groupId orderId leaderId [] =
        { outcome := .returned true, state := st1, attempts := 1, delays := [] } ∧
      st1.users = st.users ∧
      st1.txns = st.txns ++ [creditTxn groupId orderId leaderId []] ∧
      (alookup orderId st1.orders).map Order.status = some ("completed") ∧
      alookup groupId st1.groups = none ∧
      totalOf ([] : List OrderSplit) = 0 ∧ feeOf ([] : List OrderSplit) = 0 ∧
      (creditTxn groupId orderId leaderId []).amount = 0 := by
  have hfee : feeOf ([] : List OrderSplit) = 0 := by
    with_unfolding_all decide
  have hzero : totalOf ([] : List OrderSplit) - feeOf ([] : List OrderSplit) = 0 := by
    rw [hfee, show totalOf ([] : List OrderSplit) = 0 from rfl, sub_zero]
  have hattempt : processAttempt st groupId orderId leaderId [] =
      .ok { commitBatch st (leaderOps groupId orderId leaderId []) with
        groups := adelete groupId (commitBatch st (leaderOps groupId orderId leaderId [])).groups } := by
    unfold processAttempt
    simp only [h1, h2, h3]
    rfl
  refine ⟨_, processOrderCompletion_ok st _ groupId orderId leaderId [] hattempt, ?_, ?_, ?_, ?_,
    rfl, hfee, ?_⟩
  · show (commitBatch st (leaderOps groupId orderId leaderId [])).users = st.users
    show aupdate leaderId (fun b => b + (totalOf [] - feeOf [])) st.users = st.users
    apply aupdate_id
    intro v
    rw [hzero, add_zero]
  · show (commitBatch st (leaderOps groupId orderId leaderId [])).txns = _
    rw [show leaderOps groupId orderId leaderId [] =
      [BatchOp.walletIncrement leaderId (totalOf [] - feeOf []),
       BatchOp.addTxn (creditTxn groupId orderId leaderId []),
       BatchOp.orderComplete orderId (feeOf [])] from rfl]
    rw [commitBatch_txns]
    rfl
  · show (alookup orderId (commitBatch st (leaderOps groupId orderId leaderId [])).orders).map
      Order.status = some ("completed")
    have hlk : alookup orderId st.orders = some od :=
      ((validateOrder_ok_iff st orderId od).mp h1).1
    show (alookup orderId (aupdate orderId _ st.orders)).map Order.status = _
    rw [alookup_aupdate_self, hlk]
    rfl
  · exact alookup_adelete_self groupId _
  · show totalOf ([] : List OrderSplit) - feeOf ([] : List OrderSplit) = 0
    exact hzero

/-- The store for the C10 witness. -/
def c10state : DBState :=
  { users := [(("L"), 5), (("a"), 7)],
    orders := [(("o"), { status := "pending", items := [], platformFee := none })],
    groups := [(("g"), { status := "ordered", members := [("L"), ("a")] })],
    txns := [] }

/-- Witness for C10 at a concrete store: the empty-splits settlement
returns true on the first attempt, leaves both wallets unchanged,
appends a zero credit, completes the order and deletes the group. -/
theorem c10_empty_splits_settle_witness :
    ∃ st1, processOrderCompletion c10state ("g") ("o") ("L") [] =
        { outcome := .returned true, state := st1, attempts := 1, delays := [] } ∧
      st1.users = c10state.users ∧
      st1.txns = c10state.txns ++ [creditTxn ("g") ("o") ("L") []] ∧
      (alookup ("o") st1.orders).map Order.status = some ("completed") ∧
      alookup ("g") st1.groups = none ∧
      totalOf ([] : List OrderSplit) = 0 ∧ feeOf ([] : List OrderSplit) = 0 ∧
      (creditTxn ("g") ("o") ("L") []).amount = 0 :=
  c10_empty_splits_settle c10state ("g") ("o") ("L")
    { status := "pending", items := [], platformFee := none }
    [("L"), ("a")] [(("L"), 5), (("a"), 7)]
    (by with_unfolding_all decide) (by with_unfolding_all decide)
    (by with_unfolding_all decide)

/-! ### Claim C1: atomicity across the batch limit -/

/-- A 1-rupee approved split charged to member a (the source never
deduplicates the `splits` array, and each balance check reads the
wallet snapshot taken before the loop, so 250 such splits pass the
check against a balance of 250). -/
def c1splitA : OrderSplit :=
  { userId := ("a"), originalAmount := 1, taxShare := 0, discountShare := 0,
    finalAmount := 1, approved := true }

/-- The 1-rupee approved split of the unfunded member u. -/
def c1splitU : OrderSplit :=
  { userId := ("u"), originalAmount := 1, taxShare := 0, discountShare := 0,
    finalAmount := 1, approved := true }

/-- The C1 failing input: 250 staged debits (500 batch operations) for
member a, then one split for the unfunded member u. -/
def c1splits : List OrderSplit := List.replicate 250 c1splitA ++ [c1splitU]

/-- The C1 failing store: pending order, ordered group with members
L, a, u; a holds 250 rupees, u holds 0. -/
def c1state : DBState :=
  { users := [(("L"), 0), (("a"), 250), (("u"), 0)],
    orders := [(("o"), { status := "pending", items := [], platformFee := none })],
    groups := [(("g"), { status := "ordered", members := [("L"), ("a"), ("u")] })],
    txns := [] }

/-- The store the failing C1 attempt leaves behind: member a debited
from 250 to 0 by the mid-loop batch commit, 250 committed debit ledger
entries, the leader never credited, order and group untouched. -/
def c1after : DBState :=
  { users := [(("L"), 0), (("a"), 0), (("u"), 0)],
    orders := [(("o"), { status := "pending", items := [], platformFee := none })],
    groups := [(("g"), { status := "ordered", members := [("L"), ("a"), ("u")] })],
    txns := List.replicate 250 (debitTxn ("g") ("o") c1splitA) }

set_option maxRecDepth 100000 in
set_option maxHeartbeats 4000000 in
/-- C1 refuted: after 250 debits the loop reaches the
`MAX_BATCH_SIZE = 500` operation limit and commits the batch mid-loop;
the balance check for u then fails with `INSUFFICIENT_BALANCE` naming u,
but the attempt leaves member a already debited from 250 to 0 (with 250
completed debit ledger entries committed) while the leader was never
credited — exactly the partial state the claim says is never observable.
(The `writeBatch` committed inside the `runTransaction` callback is not
rolled back by the transaction's failure; the same overflow happens
with 251 distinct one-split members, which only makes the store
larger.) -/
theorem c1_mid_batch_partial_commit :
    processAttempt c1state ("g") ("o") ("L") c1splits =
      .error (.INSUFFICIENT_BALANCE ("u"), c1after) ∧
    alookup ("a") c1state.users = some 250 ∧
    alookup ("a") c1after.users = some 0 ∧
    alookup ("L") c1state.users = some 0 ∧
    alookup ("L") c1after.users = some 0 ∧
    c1after.txns.length = 250 := by
  refine ⟨by with_unfolding_all decide, by with_unfolding_all decide,
    by with_unfolding_all decide, by with_unfolding_all decide,
    by with_unfolding_all decide, by decide⟩

end GatherPay
